import Mathlib

/-!
Verification of the ros2-types-registry core against its specification.

The Rust sources are embedded shallowly:
- pure functions become Lean functions over `String`, `List` and structures;
- fallible Rust code (functions returning Result, or code that can panic via
  expect) becomes Lean functions returning Except or Option;
- file-system input and the network transport are abstracted away: the loader
  is modelled from the point where a definition file and its sibling JSON
  description have been read and parsed into a HashedTypeDescription value.

Rust string splitting (str::split) and formatting are re-implemented over
`String.data` so that every definition evaluates inside the kernel.
-/

/-- Wire-level field type codes, translated from the FieldTypeId enum in src/field_type.rs. -/
inductive FieldTypeId where
  | NotSet
  | NestedType
  | Int8
  | UInt8
  | Int16
  | UInt16
  | Int32
  | UInt32
  | Int64
  | UInt64
  | Float
  | Double
  | LongDouble
  | Char
  | WChar
  | Boolean
  | Byte
  | String
  | WString
  | FixedString
  | FixedWString
  | BoundedString
  | BoundedWString
  | NestedTypeArray
  | Int8Array
  | UInt8Array
  | Int16Array
  | UInt16Array
  | Int32Array
  | UInt32Array
  | Int64Array
  | UInt64Array
  | FloatArray
  | DoubleArray
  | LongDoubleArray
  | CharArray
  | WCharArray
  | BooleanArray
  | ByteArray
  | StringArray
  | WStringArray
  | FixedStringArray
  | FixedWStringArray
  | BoundedStringArray
  | BoundedWStringArray
  | NestedTypeBoundedSequence
  | Int8BoundedSequence
  | UInt8BoundedSequence
  | Int16BoundedSequence
  | UInt16BoundedSequence
  | Int32BoundedSequence
  | UInt32BoundedSequence
  | Int64BoundedSequence
  | UInt64BoundedSequence
  | FloatBoundedSequence
  | DoubleBoundedSequence
  | LongDoubleBoundedSequence
  | CharBoundedSequence
  | WCharBoundedSequence
  | BooleanBoundedSequence
  | ByteBoundedSequence
  | StringBoundedSequence
  | WStringBoundedSequence
  | FixedStringBoundedSequence
  | FixedWStringBoundedSequence
  | BoundedStringBoundedSequence
  | BoundedWStringBoundedSequence
  | NestedTypeUnboundedSequence
  | Int8UnboundedSequence
  | UInt8UnboundedSequence
  | Int16UnboundedSequence
  | UInt16UnboundedSequence
  | Int32UnboundedSequence
  | UInt32UnboundedSequence
  | Int64UnboundedSequence
  | UInt64UnboundedSequence
  | FloatUnboundedSequence
  | DoubleUnboundedSequence
  | LongDoubleUnboundedSequence
  | CharUnboundedSequence
  | WCharUnboundedSequence
  | BooleanUnboundedSequence
  | ByteUnboundedSequence
  | StringUnboundedSequence
  | WStringUnboundedSequence
  | FixedStringUnboundedSequence
  | FixedWStringUnboundedSequence
  | BoundedStringUnboundedSequence
  | BoundedWStringUnboundedSequence
deriving DecidableEq

/-- Name of each FieldTypeId variant, as strum derives it (the variant name verbatim). -/
def fieldTypeId_name : FieldTypeId → String
  | .NotSet => "NotSet"
  | .NestedType => "NestedType"
  | .Int8 => "Int8"
  | .UInt8 => "UInt8"
  | .Int16 => "Int16"
  | .UInt16 => "UInt16"
  | .Int32 => "Int32"
  | .UInt32 => "UInt32"
  | .Int64 => "Int64"
  | .UInt64 => "UInt64"
  | .Float => "Float"
  | .Double => "Double"
  | .LongDouble => "LongDouble"
  | .Char => "Char"
  | .WChar => "WChar"
  | .Boolean => "Boolean"
  | .Byte => "Byte"
  | .String => "String"
  | .WString => "WString"
  | .FixedString => "FixedString"
  | .FixedWString => "FixedWString"
  | .BoundedString => "BoundedString"
  | .BoundedWString => "BoundedWString"
  | .NestedTypeArray => "NestedTypeArray"
  | .Int8Array => "Int8Array"
  | .UInt8Array => "UInt8Array"
  | .Int16Array => "Int16Array"
  | .UInt16Array => "UInt16Array"
  | .Int32Array => "Int32Array"
  | .UInt32Array => "UInt32Array"
  | .Int64Array => "Int64Array"
  | .UInt64Array => "UInt64Array"
  | .FloatArray => "FloatArray"
  | .DoubleArray => "DoubleArray"
  | .LongDoubleArray => "LongDoubleArray"
  | .CharArray => "CharArray"
  | .WCharArray => "WCharArray"
  | .BooleanArray => "BooleanArray"
  | .ByteArray => "ByteArray"
  | .StringArray => "StringArray"
  | .WStringArray => "WStringArray"
  | .FixedStringArray => "FixedStringArray"
  | .FixedWStringArray => "FixedWStringArray"
  | .BoundedStringArray => "BoundedStringArray"
  | .BoundedWStringArray => "BoundedWStringArray"
  | .NestedTypeBoundedSequence => "NestedTypeBoundedSequence"
  | .Int8BoundedSequence => "Int8BoundedSequence"
  | .UInt8BoundedSequence => "UInt8BoundedSequence"
  | .Int16BoundedSequence => "Int16BoundedSequence"
  | .UInt16BoundedSequence => "UInt16BoundedSequence"
  | .Int32BoundedSequence => "Int32BoundedSequence"
  | .UInt32BoundedSequence => "UInt32BoundedSequence"
  | .Int64BoundedSequence => "Int64BoundedSequence"
  | .UInt64BoundedSequence => "UInt64BoundedSequence"
  | .FloatBoundedSequence => "FloatBoundedSequence"
  | .DoubleBoundedSequence => "DoubleBoundedSequence"
  | .LongDoubleBoundedSequence => "LongDoubleBoundedSequence"
  | .CharBoundedSequence => "CharBoundedSequence"
  | .WCharBoundedSequence => "WCharBoundedSequence"
  | .BooleanBoundedSequence => "BooleanBoundedSequence"
  | .ByteBoundedSequence => "ByteBoundedSequence"
  | .StringBoundedSequence => "StringBoundedSequence"
  | .WStringBoundedSequence => "WStringBoundedSequence"
  | .FixedStringBoundedSequence => "FixedStringBoundedSequence"
  | .FixedWStringBoundedSequence => "FixedWStringBoundedSequence"
  | .BoundedStringBoundedSequence => "BoundedStringBoundedSequence"
  | .BoundedWStringBoundedSequence => "BoundedWStringBoundedSequence"
  | .NestedTypeUnboundedSequence => "NestedTypeUnboundedSequence"
  | .Int8UnboundedSequence => "Int8UnboundedSequence"
  | .UInt8UnboundedSequence => "UInt8UnboundedSequence"
  | .Int16UnboundedSequence => "Int16UnboundedSequence"
  | .UInt16UnboundedSequence => "UInt16UnboundedSequence"
  | .Int32UnboundedSequence => "Int32UnboundedSequence"
  | .UInt32UnboundedSequence => "UInt32UnboundedSequence"
  | .Int64UnboundedSequence => "Int64UnboundedSequence"
  | .UInt64UnboundedSequence => "UInt64UnboundedSequence"
  | .FloatUnboundedSequence => "FloatUnboundedSequence"
  | .DoubleUnboundedSequence => "DoubleUnboundedSequence"
  | .LongDoubleUnboundedSequence => "LongDoubleUnboundedSequence"
  | .CharUnboundedSequence => "CharUnboundedSequence"
  | .WCharUnboundedSequence => "WCharUnboundedSequence"
  | .BooleanUnboundedSequence => "BooleanUnboundedSequence"
  | .ByteUnboundedSequence => "ByteUnboundedSequence"
  | .StringUnboundedSequence => "StringUnboundedSequence"
  | .WStringUnboundedSequence => "WStringUnboundedSequence"
  | .FixedStringUnboundedSequence => "FixedStringUnboundedSequence"
  | .FixedWStringUnboundedSequence => "FixedWStringUnboundedSequence"
  | .BoundedStringUnboundedSequence => "BoundedStringUnboundedSequence"
  | .BoundedWStringUnboundedSequence => "BoundedWStringUnboundedSequence"

/-- Numeric discriminant of each FieldTypeId variant, from the explicit values in src/field_type.rs. -/
def fieldTypeId_code : FieldTypeId → Nat
  | .NotSet => 0
  | .NestedType => 1
  | .Int8 => 2
  | .UInt8 => 3
  | .Int16 => 4
  | .UInt16 => 5
  | .Int32 => 6
  | .UInt32 => 7
  | .Int64 => 8
  | .UInt64 => 9
  | .Float => 10
  | .Double => 11
  | .LongDouble => 12
  | .Char => 13
  | .WChar => 14
  | .Boolean => 15
  | .Byte => 16
  | .String => 17
  | .WString => 18
  | .FixedString => 19
  | .FixedWString => 20
  | .BoundedString => 21
  | .BoundedWString => 22
  | .NestedTypeArray => 49
  | .Int8Array => 50
  | .UInt8Array => 51
  | .Int16Array => 52
  | .UInt16Array => 53
  | .Int32Array => 54
  | .UInt32Array => 55
  | .Int64Array => 56
  | .UInt64Array => 57
  | .FloatArray => 58
  | .DoubleArray => 59
  | .LongDoubleArray => 60
  | .CharArray => 61
  | .WCharArray => 62
  | .BooleanArray => 63
  | .ByteArray => 64
  | .StringArray => 65
  | .WStringArray => 66
  | .FixedStringArray => 67
  | .FixedWStringArray => 68
  | .BoundedStringArray => 69
  | .BoundedWStringArray => 70
  | .NestedTypeBoundedSequence => 97
  | .Int8BoundedSequence => 98
  | .UInt8BoundedSequence => 99
  | .Int16BoundedSequence => 100
  | .UInt16BoundedSequence => 101
  | .Int32BoundedSequence => 102
  | .UInt32BoundedSequence => 103
  | .Int64BoundedSequence => 104
  | .UInt64BoundedSequence => 105
  | .FloatBoundedSequence => 106
  | .DoubleBoundedSequence => 107
  | .LongDoubleBoundedSequence => 108
  | .CharBoundedSequence => 109
  | .WCharBoundedSequence => 110
  | .BooleanBoundedSequence => 111
  | .ByteBoundedSequence => 112
  | .StringBoundedSequence => 113
  | .WStringBoundedSequence => 114
  | .FixedStringBoundedSequence => 115
  | .FixedWStringBoundedSequence => 116
  | .BoundedStringBoundedSequence => 117
  | .BoundedWStringBoundedSequence => 118
  | .NestedTypeUnboundedSequence => 145
  | .Int8UnboundedSequence => 146
  | .UInt8UnboundedSequence => 147
  | .Int16UnboundedSequence => 148
  | .UInt16UnboundedSequence => 149
  | .Int32UnboundedSequence => 150
  | .UInt32UnboundedSequence => 151
  | .Int64UnboundedSequence => 152
  | .UInt64UnboundedSequence => 153
  | .FloatUnboundedSequence => 154
  | .DoubleUnboundedSequence => 155
  | .LongDoubleUnboundedSequence => 156
  | .CharUnboundedSequence => 157
  | .WCharUnboundedSequence => 158
  | .BooleanUnboundedSequence => 159
  | .ByteUnboundedSequence => 160
  | .StringUnboundedSequence => 161
  | .WStringUnboundedSequence => 162
  | .FixedStringUnboundedSequence => 163
  | .FixedWStringUnboundedSequence => 164
  | .BoundedStringUnboundedSequence => 165
  | .BoundedWStringUnboundedSequence => 166

set_option maxHeartbeats 1600000 in
/-- All FieldTypeId variants, in declaration order. -/
def fieldTypeId_variants : List FieldTypeId :=
  [.NotSet,
   .NestedType,
   .Int8,
   .UInt8,
   .Int16,
   .UInt16,
   .Int32,
   .UInt32,
   .Int64,
   .UInt64,
   .Float,
   .Double,
   .LongDouble,
   .Char,
   .WChar,
   .Boolean,
   .Byte,
   .String,
   .WString,
   .FixedString,
   .FixedWString,
   .BoundedString,
   .BoundedWString,
   .NestedTypeArray,
   .Int8Array,
   .UInt8Array,
   .Int16Array,
   .UInt16Array,
   .Int32Array,
   .UInt32Array,
   .Int64Array,
   .UInt64Array,
   .FloatArray,
   .DoubleArray,
   .LongDoubleArray,
   .CharArray,
   .WCharArray,
   .BooleanArray,
   .ByteArray,
   .StringArray,
   .WStringArray,
   .FixedStringArray,
   .FixedWStringArray,
   .BoundedStringArray,
   .BoundedWStringArray,
   .NestedTypeBoundedSequence,
   .Int8BoundedSequence,
   .UInt8BoundedSequence,
   .Int16BoundedSequence,
   .UInt16BoundedSequence,
   .Int32BoundedSequence,
   .UInt32BoundedSequence,
   .Int64BoundedSequence,
   .UInt64BoundedSequence,
   .FloatBoundedSequence,
   .DoubleBoundedSequence,
   .LongDoubleBoundedSequence,
   .CharBoundedSequence,
   .WCharBoundedSequence,
   .BooleanBoundedSequence,
   .ByteBoundedSequence,
   .StringBoundedSequence,
   .WStringBoundedSequence,
   .FixedStringBoundedSequence,
   .FixedWStringBoundedSequence,
   .BoundedStringBoundedSequence,
   .BoundedWStringBoundedSequence,
   .NestedTypeUnboundedSequence,
   .Int8UnboundedSequence,
   .UInt8UnboundedSequence,
   .Int16UnboundedSequence,
   .UInt16UnboundedSequence,
   .Int32UnboundedSequence,
   .UInt32UnboundedSequence,
   .Int64UnboundedSequence,
   .UInt64UnboundedSequence,
   .FloatUnboundedSequence,
   .DoubleUnboundedSequence,
   .LongDoubleUnboundedSequence,
   .CharUnboundedSequence,
   .WCharUnboundedSequence,
   .BooleanUnboundedSequence,
   .ByteUnboundedSequence,
   .StringUnboundedSequence,
   .WStringUnboundedSequence,
   .FixedStringUnboundedSequence,
   .FixedWStringUnboundedSequence,
   .BoundedStringUnboundedSequence,
   .BoundedWStringUnboundedSequence]

/-- Name table used by the string parser: each variant paired with its name, in
declaration order, mirroring what strum generates for EnumString. -/
def fieldTypeId_nameTable : List (String × FieldTypeId) :=
  fieldTypeId_variants.map (fun v => (fieldTypeId_name v, v))

/-- String parse of a field type id, translated from the derived EnumString
from_str in src/field_type.rs. The FieldTypeId enum does not carry the strum
ascii_case_insensitive attribute, so the derived parser compares names exactly,
case-sensitively. Failure (a serde unknown_variant error listing the valid
names) is modelled as none. -/
def fieldTypeId_from_str (s : String) : Option FieldTypeId :=
  (fieldTypeId_nameTable.find? (fun p => p.1 == s)).map (fun p => p.2)

/-- Integer parse of a field type id, translated from the derived FromRepr
from_repr in src/field_type.rs: the unique variant with the given
discriminant, if any. Failure (a serde invalid_value error) is modelled as
none. -/
def fieldTypeId_from_repr (n : Nat) : Option FieldTypeId :=
  fieldTypeId_variants.find? (fun v => fieldTypeId_code v == n)

theorem eval_check_1 : fieldTypeId_from_str "Int8" = some FieldTypeId.Int8 := rfl
theorem eval_check_2 : fieldTypeId_from_str "int8" = none := rfl
theorem eval_check_3 : fieldTypeId_from_repr 166 = some FieldTypeId.BoundedWStringUnboundedSequence := rfl
theorem eval_check_4 : fieldTypeId_from_repr 23 = none := rfl

/-- Kind of a type definition file, translated from TypeKind in src/type_info.rs. -/
inductive TypeKind where
  | MSG
  | SRV
  | ACTION
deriving DecidableEq

/-- Strum AsRefStr for TypeKind: the variant name verbatim. -/
def typeKind_as_ref : TypeKind → String
  | .MSG => "MSG"
  | .SRV => "SRV"
  | .ACTION => "ACTION"

/-- ASCII lower-casing of one character, as Rust to_lowercase and the strum
ascii_case_insensitive comparison treat ASCII letters. -/
def lowerAscii (c : Char) : Char :=
  if 'A' ≤ c ∧ c ≤ 'Z' then Char.ofNat (c.toNat + 32) else c

/-- ASCII lower-casing of a string (Rust str::to_lowercase on ASCII input). -/
def asciiLower (s : String) : String :=
  String.mk (s.data.map lowerAscii)

/-- ASCII case-insensitive string equality, as strum compares names under the
ascii_case_insensitive attribute. -/
def eqIgnoreAsciiCase (a b : String) : Bool :=
  a.data.map lowerAscii == b.data.map lowerAscii

/-- Strum EnumString for TypeKind (which does carry ascii_case_insensitive):
the unique variant whose name matches the input ASCII-case-insensitively. -/
def typeKind_from_str (s : String) : Option TypeKind :=
  if eqIgnoreAsciiCase s "MSG" then some TypeKind.MSG
  else if eqIgnoreAsciiCase s "SRV" then some TypeKind.SRV
  else if eqIgnoreAsciiCase s "ACTION" then some TypeKind.ACTION
  else none

/-- Field type of one field, translated from FieldType in src/type_description.rs.
The Rust field named type (raw identifier) is rendered here as type_id_info. -/
structure FieldType where
  type_id : FieldTypeId
  capacity : Nat
  string_capacity : Nat
  nested_type_name : String
deriving DecidableEq

/-- One field of a type description, translated from Field in
src/type_description.rs (named MsgField here because Mathlib already defines
Field). -/
structure MsgField where
  default_value : Option String
  name : String
  ftype : FieldType
deriving DecidableEq

/-- One individual type description, translated from src/type_description.rs. -/
structure IndividualTypeDescription where
  type_name : String
  fields : List MsgField
deriving DecidableEq

/-- A type description with its referenced types, translated from src/type_description.rs. -/
structure TypeDescription where
  type_description : IndividualTypeDescription
  referenced_type_descriptions : List IndividualTypeDescription
deriving DecidableEq

/-- A type name and its hash string, translated from src/type_description.rs. -/
structure TypeNameAndHash where
  type_name : String
  hash_string : String
deriving DecidableEq

/-- The parsed content of one .json description file, translated from
HashedTypeDescription in src/type_description.rs. -/
structure HashedTypeDescription where
  type_description_msg : TypeDescription
  type_hashes : List TypeNameAndHash
deriving DecidableEq

/-- A validated type record, translated from TypeInfo in src/type_info.rs.
Paths are modelled as plain strings. -/
structure TypeInfo where
  full_name : String
  package_name : String
  short_name : String
  kind : TypeKind
  type_description : HashedTypeDescription
  type_hash : String
  json_path : String
  definition_path : String
  definition_content : String
deriving DecidableEq

/-- Splitting a character list at every occurrence of a separator, following
Rust str::split semantics (empty pieces are kept; the empty input yields one
empty piece). Defined at character level so that it evaluates in the kernel. -/
def splitChar (sep : Char) : List Char → List (List Char)
  | [] => [[]]
  | c :: rest =>
    match splitChar sep rest with
    | [] => [[c]]
    | h :: t => if c = sep then [] :: h :: t else (c :: h) :: t

/-- The segments of a slash-separated name, as full_name.split in
src/type_info.rs produces them. -/
def chunks (s : String) : List String :=
  (splitChar '/' s.data).map String.mk

/-- Short display name of a record, translated from
TypeInfo::get_short_type_name in src/type_info.rs. -/
def get_short_type_name (t : TypeInfo) : String :=
  t.package_name ++ "/" ++ t.short_name

/-- Record construction, translated from TypeInfo::new in src/type_info.rs:
validate the three-segment name, the kind segment, and resolve the type hash
from the hash list (the first entry whose type_name equals the full name).
Error messages follow the source text, with Rust quoting elided. -/
def typeInfo_new (full_name : String) (kind : TypeKind)
    (type_description : HashedTypeDescription) (definition_content : String)
    (json_path : String) (definition_path : String) : Except String TypeInfo :=
  match chunks full_name with
  | [pkg, kindSeg, short] =>
    match typeKind_from_str kindSeg with
    | some k =>
      if k ≠ kind then
        .error ("Type kind mismatch: expected " ++ asciiLower (typeKind_as_ref kind) ++
          ", found " ++ kindSeg ++ " in type name " ++ full_name)
      else
        match type_description.type_hashes.find? (fun th => th.type_name == full_name) with
        | some th =>
          .ok { full_name := full_name, package_name := pkg, short_name := short,
                kind := kind, type_description := type_description,
                type_hash := th.hash_string, json_path := json_path,
                definition_path := definition_path,
                definition_content := definition_content }
        | none => .error ("No hash found for type " ++ full_name ++ " in " ++ json_path)
    | none =>
      .error ("Invalid type kind " ++ kindSeg ++ " in type name " ++ full_name ++
        ". Expected " ++ asciiLower (typeKind_as_ref kind))
  | _ =>
    .error ("Invalid type name format: " ++ full_name ++
      ". Expected format is <package>/<kind>/<name>, e.g. std_msgs/msg/String")

theorem eval_check_5 : chunks "std_msgs/msg/String" = ["std_msgs", "msg", "String"] := rfl
theorem eval_check_6 : typeKind_from_str "msg" = some TypeKind.MSG := rfl
theorem eval_check_7 : typeKind_from_str "Action" = some TypeKind.ACTION := rfl
theorem eval_check_8 : typeKind_from_str "message" = none := rfl

/-- Validity of one key-expression chunk. Modelled from the spec: the zenoh
key-expression rules enforced by OwnedKeyExpr::try_from and KeyExpr::try_from
(the zenoh-keyexpr library, whose code is not part of this repository): a
chunk is the wildcard star, the wildcard double star, or a non-empty piece of
text free of the reserved characters star, dollar, sharp and question mark. -/
def chunk_valid (c : String) : Bool :=
  c == "*" || c == "**" ||
    (!(c == "") && c.data.all (fun ch => ch ≠ '*' && ch ≠ '$' && ch ≠ '#' && ch ≠ '?'))

/-- Validity of a whole key expression. Modelled from the spec: every
slash-separated chunk must be valid. Note that wildcard chunks are valid key
expressions; nothing here rejects a star. -/
def keyexpr_valid (s : String) : Bool :=
  (chunks s).all chunk_valid

/-- Key-expression pattern matching over literal segment lists. Modelled from
the spec: a literal segment matches exactly itself, a single-level wildcard
star matches exactly one arbitrary segment, and a multi-level wildcard double
star matches zero or more arbitrary segments (so a trailing double star
matches the current node and its entire subtree). This is the matching the
zenoh keyexpr tree performs in Registry::get_types for literal stored keys. -/
def keMatch : List String → List String → Bool
  | [], ks => ks.isEmpty
  | p :: ps, ks =>
    if p = "**" then
      (ks.tails).any (fun suffix => keMatch ps suffix)
    else
      match ks with
      | [] => false
      | k :: ks' => (p == "*" || p == k) && keMatch ps ks'

/-- The registry content: the records held by the KeBoxTree, in insertion
order. The tree of src/registry.rs is modelled as this list together with
exact-key and pattern lookups over it. -/
def Registry := List TypeInfo

/-- Exact-key lookup, translated from the weight_at calls in src/registry.rs. -/
def weight_at (reg : List TypeInfo) (name : String) : Option TypeInfo :=
  reg.find? (fun t => t.full_name == name)

/-- The conflict error text of Registry::load_type_from_file, naming the full
name and both source .json paths. -/
def conflictMsg (full_name existing_json new_json : String) : String :=
  "Found conflicting hash for " ++ full_name ++ " loaded from " ++ existing_json ++
    " : see " ++ new_json ++ ". Check types definitions!"

/-- Outcome of loading one file: Ok or a per-record error message. -/
inductive LoadResult where
  | ok
  | err (msg : String)
deriving DecidableEq

/-- The duplicate check and insertion of Registry::load_type_from_file
(src/registry.rs lines 134 to 154): an existing record with the same hash is
an accepted no-op, a different hash is a conflict error leaving the tree
untouched, and otherwise the record is appended to the tree. -/
def check_and_insert (reg : List TypeInfo) (t : TypeInfo) : List TypeInfo × LoadResult :=
  match weight_at reg t.full_name with
  | some existing =>
    if existing.type_hash == t.type_hash then (reg, .ok)
    else (reg, .err (conflictMsg t.full_name existing.json_path t.json_path))
  | none => (reg ++ [t], .ok)

/-- The error text for a type name rejected by OwnedKeyExpr::try_from (Rust
quoting and the underlying zenoh error text elided). -/
def invalidNameMsg (type_name json_path : String) : String :=
  "Invalid type name " ++ type_name ++ " in " ++ json_path

/-- Registry::load_type_from_file from the point where the .json sibling has
been read and parsed (file-system access is abstracted away): validate the
self type name as a key expression, build the TypeInfo, then check for a
duplicate and insert. Returns the new registry content and the outcome. -/
def load_type_from_file (reg : List TypeInfo) (td : HashedTypeDescription)
    (kind : TypeKind) (json_path definition_path definition_content : String) :
    List TypeInfo × LoadResult :=
  let type_name := td.type_description_msg.type_description.type_name
  if keyexpr_valid type_name then
    match typeInfo_new type_name kind td definition_content json_path definition_path with
    | .ok info => check_and_insert reg info
    | .error e => (reg, .err e)
  else (reg, .err (invalidNameMsg type_name json_path))

/-- One candidate definition file of a directory walk, abstracted to its
already-read content: the parsed .json description, the kind identified by the
extension, both paths, and the raw definition text. -/
structure LoadInput where
  td : HashedTypeDescription
  kind : TypeKind
  json_path : String
  definition_path : String
  definition_content : String
deriving DecidableEq

/-- Registry::load_types_from_dir over the candidate files found by the walk
(walk errors and non-candidate files are already filtered out, as the source
filters them before calling load_type_from_file): each file is loaded, a
per-file error is logged and skipped, and count is incremented on every Ok
outcome. Returns the new registry content and the count added to size. -/
def load_types_from_dir (reg : List TypeInfo) (entries : List LoadInput) :
    List TypeInfo × Nat :=
  entries.foldl
    (fun acc e =>
      match load_type_from_file acc.1 e.td e.kind e.json_path e.definition_path
          e.definition_content with
      | (reg', .ok) => (reg', acc.2 + 1)
      | (reg', .err _) => (reg', acc.2))
    (reg, 0)

/-- A registry built by loading a sequence of candidate files into an empty
registry, in the given order. -/
def buildRegistry (entries : List LoadInput) : List TypeInfo :=
  (load_types_from_dir [] entries).1

/-- Registry::get_types: all records whose stored key is matched by the query
pattern, in stored order (included_nodes over the tree, filtered to nodes
holding a weight). -/
def get_types (reg : List TypeInfo) (ke : String) : List TypeInfo :=
  reg.filter (fun t => keMatch (chunks ke) (chunks t.full_name))

theorem eval_check_9 : keMatch (chunks "pkg/msg/**") (chunks "pkg/msg/Foo") = true := rfl
theorem eval_check_10 : keMatch (chunks "pkg/msg/**") (chunks "pkg/srv/Foo") = false := rfl
theorem eval_check_11 : keMatch (chunks "**") (chunks "a/b/c") = true := rfl
theorem eval_check_12 : keMatch (chunks "pkg/*/Foo") (chunks "pkg/msg/Foo") = true := rfl
theorem eval_check_13 : keyexpr_valid "*/msg/Foo" = true := rfl
theorem eval_check_14 : keyexpr_valid "" = false := rfl
theorem eval_check_15 : keyexpr_valid "a//b" = false := rfl

/-- The separator line of Registry::get_mcap_schema: a newline, eighty equals
signs, and a newline. -/
def SEPARATOR : String :=
  String.mk ('\n' :: (List.replicate 80 '=' ++ ['\n']))

/-- The text appended for one resolved dependency in
Registry::get_mcap_schema: the separator, the kind, a colon and space, the
short type name, a newline, and the dependency definition text, in the exact
push_str order of the source. -/
def depBlock (d : TypeInfo) : String :=
  SEPARATOR ++ typeKind_as_ref d.kind ++ ": " ++ get_short_type_name d ++ "\n" ++
    d.definition_content

/-- The dependency loop of Registry::get_mcap_schema. Each referenced name is
first converted by KeyExpr::try_from under an expect that panics on an invalid
key expression; the panic is modelled as none. A name absent from the tree is
skipped. -/
def mcapDeps (reg : List TypeInfo) :
    List IndividualTypeDescription → String → Option String
  | [], acc => some acc
  | dep :: rest, acc =>
    if keyexpr_valid dep.type_name then
      match weight_at reg dep.type_name with
      | some d => mcapDeps reg rest (acc ++ depBlock d)
      | none => mcapDeps reg rest acc
    else none

/-- Registry::get_mcap_schema: the definition text of the root record followed
by the dependency blocks, in declaration order. Returns none exactly when the
source would panic on an invalid referenced name. -/
def get_mcap_schema (reg : List TypeInfo) (t : TypeInfo) : Option String :=
  mcapDeps reg t.type_description.type_description_msg.referenced_type_descriptions
    t.definition_content

/-- The flattened schema text as the specification words it, written
independently of the source loop: for each entry of
referenced_type_descriptions in declaration order and without deduplication,
the separator line, the header line and the definition text of the dependency
found by exact key lookup, an unresolvable name contributing nothing. -/
def specBlocks (reg : List TypeInfo) : List IndividualTypeDescription → String
  | [] => ""
  | dep :: rest =>
    (match weight_at reg dep.type_name with
     | some d => depBlock d
     | none => "") ++ specBlocks reg rest

/-- The whole flattened schema as the specification describes it: the root
definition text followed by the dependency blocks. -/
def mcapSchemaSpec (reg : List TypeInfo) (t : TypeInfo) : String :=
  t.definition_content ++
    specBlocks reg t.type_description.type_description_msg.referenced_type_descriptions

/-- The fixed allow-list of queryable environment variables from src/main.rs. -/
def ALLOWED_ENV_VARS : List String :=
  ["ROS_DOMAIN_ID", "RMW_IMPLEMENTATION", "ROS_VERSION", "ROS_PYTHON_VERSION",
   "ROS_DISTRO", "AMENT_PREFIX_PATH"]

/-- One reply sent for an environment-variable query: either a data reply
carrying the value or an error reply carrying a message. -/
inductive EnvReply where
  | data (value : String)
  | err (msg : String)
deriving DecidableEq

/-- The error text sent for a variable outside ALLOWED_ENV_VARS (Rust quoting
and Debug list formatting elided; the message enumerates the allowed names). -/
def envErrMsg (envVar : String) : String :=
  "Environment variable " ++ envVar ++ " cannot be queried. Allowed variables are: " ++
    String.intercalate ", " ALLOWED_ENV_VARS

/-- The body of handle_ros2_env_query in src/main.rs, after the query key has
been parsed: the process environment is abstracted as a partial map from
variable names to values. An allow-listed set variable yields one data reply,
an allow-listed unset variable yields no reply at all, and any other variable
yields one error reply. -/
def handle_ros2_env_query (env : String → Option String) (envVar : String) :
    List EnvReply :=
  if ALLOWED_ENV_VARS.contains envVar then
    match env envVar with
    | some value => [EnvReply.data value]
    | none => []
  else
    [EnvReply.err (envErrMsg envVar)]

theorem eval_check_16 : handle_ros2_env_query (fun _ => none) "ROS_DISTRO" = [] := rfl
theorem eval_check_17 : handle_ros2_env_query (fun _ => some "humble") "ROS_DISTRO" =
    [EnvReply.data "humble"] := rfl
theorem eval_check_18 : (handle_ros2_env_query (fun _ => some "x") "PATH").length = 1 := rfl

/-! Helper lemmas about the field type catalog. -/

theorem from_str_name (v : FieldTypeId) :
    fieldTypeId_from_str (fieldTypeId_name v) = some v := by
  cases v <;> rfl

theorem from_repr_code (v : FieldTypeId) :
    fieldTypeId_from_repr (fieldTypeId_code v) = some v := by
  cases v <;> rfl

theorem from_str_sound {s : String} {v : FieldTypeId}
    (h : fieldTypeId_from_str s = some v) : fieldTypeId_name v = s := by
  unfold fieldTypeId_from_str at h
  rcases Option.map_eq_some'.mp h with ⟨p, hfind, hv⟩
  have hbeq := List.find?_some hfind
  have hmem := List.mem_of_find?_eq_some hfind
  unfold fieldTypeId_nameTable at hmem
  rcases List.mem_map.mp hmem with ⟨w, _, hw⟩
  subst hw
  subst hv
  exact beq_iff_eq.mp hbeq

theorem from_repr_sound {n : Nat} {v : FieldTypeId}
    (h : fieldTypeId_from_repr n = some v) : fieldTypeId_code v = n := by
  unfold fieldTypeId_from_repr at h
  have hbeq := List.find?_some h
  exact beq_iff_eq.mp hbeq

/-- C8: for every FieldTypeId variant x, parsing the name produced for x
yields x, and parsing the numeric code produced for x yields x. -/
theorem fieldTypeId_roundtrip (x : FieldTypeId) :
    fieldTypeId_from_str (fieldTypeId_name x) = some x ∧
    fieldTypeId_from_repr (fieldTypeId_code x) = some x :=
  ⟨from_str_name x, from_repr_code x⟩

/-- C7 counterexample: the string int8 matches the variant name Int8 up to
ASCII case, yet the parser rejects it, because the FieldTypeId enum does not
carry the strum ascii_case_insensitive attribute. This refutes the claim that
string parsing succeeds on every case-insensitive match of a variant name. -/
theorem fieldTypeId_parse_not_case_insensitive :
    fieldTypeId_from_str "int8" = none ∧
    eqIgnoreAsciiCase "int8" (fieldTypeId_name FieldTypeId.Int8) = true :=
  ⟨rfl, rfl⟩

/-- C7 amended: string parse of a field type fails exactly when the string
does not exactly (case-sensitively) equal any FieldTypeId variant name, and
otherwise returns the unique variant with that exact name; integer parse
fails exactly when the integer matches no assigned code, and otherwise
returns the unique variant with that code. -/
theorem fieldTypeId_parse_exact :
    (∀ s v, fieldTypeId_from_str s = some v ↔ fieldTypeId_name v = s) ∧
    (∀ n v, fieldTypeId_from_repr n = some v ↔ fieldTypeId_code v = n) := by
  constructor
  · intro s v
    constructor
    · exact from_str_sound
    · intro h
      subst h
      exact from_str_name v
  · intro n v
    constructor
    · exact from_repr_sound
    · intro h
      subst h
      exact from_repr_code v

/-- C10: an error reply enumerating the allowed variables is sent if and only
if the queried variable is not in the fixed allow-list, and a query for an
allow-listed variable that is unset in the process environment produces zero
replies. -/
theorem env_query_allowlist (env : String → Option String) (v : String) :
    ((∃ m, handle_ros2_env_query env v = [EnvReply.err m]) ↔ v ∉ ALLOWED_ENV_VARS) ∧
    (v ∈ ALLOWED_ENV_VARS → env v = none → handle_ros2_env_query env v = []) := by
  have hc : (ALLOWED_ENV_VARS.contains v = true) ↔ v ∈ ALLOWED_ENV_VARS := by
    simp [List.contains_iff_exists_mem_beq]
  constructor
  · constructor
    · rintro ⟨m, hm⟩ hmem
      rw [handle_ros2_env_query, if_pos (hc.mpr hmem)] at hm
      cases henv : env v <;> rw [henv] at hm <;> simp at hm
    · intro hmem
      refine ⟨envErrMsg v, ?_⟩
      rw [handle_ros2_env_query, if_neg (fun h => hmem (hc.mp h))]
  · intro hmem henv
    rw [handle_ros2_env_query, if_pos (hc.mpr hmem), henv]

/-- C10 witness: querying the allow-listed but unset variable ROS_DISTRO in an
empty environment produces zero replies. -/
theorem env_query_allowlist_witness :
    handle_ros2_env_query (fun _ => none) "ROS_DISTRO" = [] :=
  (env_query_allowlist (fun _ => none) "ROS_DISTRO").2 (by decide) rfl

/-! Concrete fixtures used by witnesses and counterexamples. -/

/-- A minimal description for the type pkg/msg/Foo with hash h1. -/
def tdA : HashedTypeDescription :=
  { type_description_msg :=
      { type_description := { type_name := "pkg/msg/Foo", fields := [] },
        referenced_type_descriptions := [] },
    type_hashes := [{ type_name := "pkg/msg/Foo", hash_string := "h1" }] }

/-- The record built from tdA as typeInfo_new produces it. -/
def infoA : TypeInfo :=
  { full_name := "pkg/msg/Foo", package_name := "pkg", short_name := "Foo",
    kind := TypeKind.MSG, type_description := tdA, type_hash := "h1",
    json_path := "a.json", definition_path := "a.msg",
    definition_content := "int8 x" }

/-- A record for the same full name loaded from another file with a different
hash. -/
def infoB : TypeInfo :=
  { infoA with type_hash := "h2", json_path := "b.json", definition_path := "b.msg" }

/-- The candidate file carrying tdA. -/
def entryA : LoadInput :=
  { td := tdA, kind := TypeKind.MSG, json_path := "a.json",
    definition_path := "a.msg", definition_content := "int8 x" }

/-- C2: when the key is occupied by a record with a different content hash,
the insertion attempt fails with the conflict error naming both source
locations, and the registry is returned unchanged, so the existing record and
every other part of the tree are preserved exactly. -/
theorem conflict_rejected (reg : List TypeInfo) (t existing : TypeInfo)
    (hfound : weight_at reg t.full_name = some existing)
    (hdiff : existing.type_hash ≠ t.type_hash) :
    check_and_insert reg t =
      (reg, LoadResult.err (conflictMsg t.full_name existing.json_path t.json_path)) ∧
    (∃ a b, conflictMsg t.full_name existing.json_path t.json_path =
      a ++ (existing.json_path ++ b)) ∧
    (∃ a b, conflictMsg t.full_name existing.json_path t.json_path =
      a ++ (t.json_path ++ b)) := by
  refine ⟨?_, ?_, ?_⟩
  · simp only [check_and_insert, hfound]
    rw [if_neg (fun h => hdiff (beq_iff_eq.mp h))]
  · refine ⟨"Found conflicting hash for " ++ t.full_name ++ " loaded from ",
      " : see " ++ t.json_path ++ ". Check types definitions!", ?_⟩
    simp [conflictMsg, String.append_assoc]
  · refine ⟨"Found conflicting hash for " ++ t.full_name ++ " loaded from " ++
      existing.json_path ++ " : see ", ". Check types definitions!", ?_⟩
    simp [conflictMsg, String.append_assoc]

/-- C2 witness: inserting the conflicting record infoB over infoA fails with
the conflict message and leaves the registry unchanged. -/
theorem conflict_rejected_witness :
    check_and_insert [infoA] infoB =
      ([infoA], LoadResult.err (conflictMsg "pkg/msg/Foo" "a.json" "b.json")) :=
  (conflict_rejected [infoA] infoB infoA rfl (by decide)).1

/-- C3 counterexample: loading the same candidate file twice into an empty
registry stores one record but reports a count of two, because
load_types_from_dir counts every Ok outcome and a same-hash re-load returns
Ok. This refutes the claim that the returned count only counts newly inserted
records. -/
theorem duplicate_counted_counterexample :
    (load_types_from_dir [] [entryA, entryA]).2 = 2 ∧
    (load_types_from_dir [] [entryA, entryA]).1 = [infoA] :=
  ⟨rfl, rfl⟩

/-- C3 amended: re-loading a record with an identical content hash at an
already-occupied full name is a no-op on the tree that succeeds without
insertion and without error, leaving the stored records unchanged; however
the per-directory count increments on every successfully processed file,
including such a same-hash re-load, so the count is of successfully loaded
files rather than of newly inserted records. -/
theorem duplicate_reload_noop_but_counted
    (reg : List TypeInfo) (e : LoadInput) (t existing : TypeInfo)
    (hvalid : keyexpr_valid e.td.type_description_msg.type_description.type_name = true)
    (hnew : typeInfo_new e.td.type_description_msg.type_description.type_name e.kind e.td
      e.definition_content e.json_path e.definition_path = .ok t)
    (hfound : weight_at reg t.full_name = some existing)
    (hsame : existing.type_hash = t.type_hash) :
    check_and_insert reg t = (reg, LoadResult.ok) ∧
    load_types_from_dir reg [e] = (reg, 1) := by
  have hins : check_and_insert reg t = (reg, LoadResult.ok) := by
    simp only [check_and_insert, hfound]
    rw [if_pos (beq_iff_eq.mpr hsame)]
  refine ⟨hins, ?_⟩
  rw [load_types_from_dir, List.foldl_cons, List.foldl_nil]
  rw [load_type_from_file]
  simp only [hvalid, if_pos, hnew, hins]

/-- C3 witness: re-loading entryA over a registry already holding infoA keeps
the registry unchanged yet is counted. -/
theorem duplicate_reload_noop_but_counted_witness :
    check_and_insert [infoA] infoA = ([infoA], LoadResult.ok) ∧
    load_types_from_dir [infoA] [entryA] = ([infoA], 1) :=
  duplicate_reload_noop_but_counted [infoA] entryA infoA infoA rfl rfl rfl rfl

/-! Helper lemmas about record construction. -/

theorem typeInfo_new_ok {full_name : String} {kind : TypeKind}
    {td : HashedTypeDescription} {dc jp dp : String} {t : TypeInfo}
    (h : typeInfo_new full_name kind td dc jp dp = .ok t) :
    t.full_name = full_name ∧
    ∃ th, td.type_hashes.find? (fun x => x.type_name == full_name) = some th ∧
      th.type_name = full_name ∧ t.type_hash = th.hash_string := by
  unfold typeInfo_new at h
  split at h
  · split at h
    · split at h
      · exact absurd h (by simp)
      · split at h
        · rename_i th hth
          cases h
          have hp := List.find?_some hth
          exact ⟨rfl, th, hth, beq_iff_eq.mp hp, rfl⟩
        · exact absurd h (by simp)
    · exact absurd h (by simp)
  · exact absurd h (by simp)

theorem typeInfo_new_no_hash {full_name : String} {kind : TypeKind}
    {td : HashedTypeDescription} {dc jp dp : String}
    (hnone : ∀ th ∈ td.type_hashes, th.type_name ≠ full_name) (t : TypeInfo) :
    typeInfo_new full_name kind td dc jp dp ≠ .ok t := by
  intro h
  rcases (typeInfo_new_ok h).2 with ⟨th, hfind, hname, _⟩
  exact hnone th (List.mem_of_find?_eq_some hfind) hname

/-- A description whose hash list holds two entries for the same type name. -/
def tdDup : HashedTypeDescription :=
  { type_description_msg :=
      { type_description := { type_name := "a/msg/B", fields := [] },
        referenced_type_descriptions := [] },
    type_hashes := [{ type_name := "a/msg/B", hash_string := "h1" },
                    { type_name := "a/msg/B", hash_string := "h2" }] }

/-- The record built from tdDup as typeInfo_new produces it. -/
def infoDup : TypeInfo :=
  { full_name := "a/msg/B", package_name := "a", short_name := "B",
    kind := TypeKind.MSG, type_description := tdDup, type_hash := "h1",
    json_path := "a.json", definition_path := "a.msg",
    definition_content := "x" }

/-- C6 counterexample: a description whose hash list carries two entries for
the full name a/msg/B is accepted at construction, taking the first hash; the
claim that exactly one entry has the full name in every accepted description
is therefore false. -/
theorem hash_entry_not_unique :
    typeInfo_new "a/msg/B" TypeKind.MSG tdDup "x" "a.json" "a.msg" =
      Except.ok infoDup ∧
    (tdDup.type_hashes.filter (fun th => th.type_name == "a/msg/B")).length = 2 :=
  ⟨rfl, rfl⟩

/-- C6 amended: for every accepted record, at least one entry of type_hashes
has the full name as its type_name, and the content hash of the record is the
hash string of the first such entry; when no entry has the full name,
construction fails and no record is produced. -/
theorem hash_resolution (full_name : String) (kind : TypeKind)
    (td : HashedTypeDescription) (dc jp dp : String) :
    (∀ t, typeInfo_new full_name kind td dc jp dp = .ok t →
      ∃ th, td.type_hashes.find? (fun x => x.type_name == full_name) = some th ∧
        th.type_name = full_name ∧ t.type_hash = th.hash_string) ∧
    ((∀ th ∈ td.type_hashes, th.type_name ≠ full_name) →
      ∀ t, typeInfo_new full_name kind td dc jp dp ≠ .ok t) :=
  ⟨fun _ h => (typeInfo_new_ok h).2, fun hnone t => typeInfo_new_no_hash hnone t⟩

/-- C6 witness: on the accepted description tdDup the resolved hash is the
hash string of the first matching entry. -/
theorem hash_resolution_witness :
    ∃ th, tdDup.type_hashes.find? (fun x => x.type_name == "a/msg/B") = some th ∧
      th.type_name = "a/msg/B" ∧ infoDup.type_hash = th.hash_string :=
  (hash_resolution "a/msg/B" TypeKind.MSG tdDup "x" "a.json" "a.msg").1 infoDup rfl

/-! Helper lemmas about key validation. -/

theorem chunk_valid_ne_empty {c : String} (h : chunk_valid c = true) : c ≠ "" := by
  intro he
  subst he
  exact absurd h (by decide)

theorem keyexpr_valid_segments {s : String} (h : keyexpr_valid s = true) :
    s ≠ "" ∧ ∀ c ∈ chunks s, c ≠ "" := by
  rw [keyexpr_valid] at h
  constructor
  · intro he
    subst he
    exact absurd h (by decide)
  · intro c hc
    exact chunk_valid_ne_empty (List.all_eq_true.mp h c hc)

/-- A description whose self type name is the single-star wildcard chunk
followed by msg and Foo. -/
def tdStar : HashedTypeDescription :=
  { type_description_msg :=
      { type_description := { type_name := "*/msg/Foo", fields := [] },
        referenced_type_descriptions := [] },
    type_hashes := [{ type_name := "*/msg/Foo", hash_string := "h" }] }

/-- C9 counterexample: the type name star slash msg slash Foo passes the key
validation of the loader (key-expression validity accepts wildcard chunks)
and the record is stored under a key containing a star, refuting the claim
that insertion rejects every key containing the reserved wildcard character. -/
theorem wildcard_key_stored :
    ((load_type_from_file [] tdStar TypeKind.MSG "s.json" "s.msg" "txt").1.map
      (fun t => t.full_name)) = ["*/msg/Foo"] ∧
    (load_type_from_file [] tdStar TypeKind.MSG "s.json" "s.msg" "txt").2 =
      LoadResult.ok ∧
    '*' ∈ "*/msg/Foo".data :=
  ⟨rfl, rfl, by decide⟩

/-- C9 amended: insertion validates the key as a key expression, which
guarantees a non-empty name made of non-empty segments and otherwise rejects
the record leaving the registry unchanged; wildcard segments, however, are
valid key expressions, so a record can be stored under a key containing a
star. Every record ever stored was either already present or has a valid
key-expression full name. -/
theorem insert_validates_keyexpr :
    (∀ s, keyexpr_valid s = true → s ≠ "" ∧ ∀ c ∈ chunks s, c ≠ "") ∧
    (∀ (reg : List TypeInfo) (td : HashedTypeDescription) (kind : TypeKind)
      (jp dp dc : String),
      keyexpr_valid td.type_description_msg.type_description.type_name = false →
      load_type_from_file reg td kind jp dp dc =
        (reg, LoadResult.err
          (invalidNameMsg td.type_description_msg.type_description.type_name jp))) ∧
    (∀ (reg : List TypeInfo) (td : HashedTypeDescription) (kind : TypeKind)
      (jp dp dc : String) (t : TypeInfo),
      t ∈ (load_type_from_file reg td kind jp dp dc).1 →
      t ∈ reg ∨ keyexpr_valid t.full_name = true) := by
  refine ⟨fun s h => keyexpr_valid_segments h, ?_, ?_⟩
  · intro reg td kind jp dp dc h
    simp [load_type_from_file, h]
  · intro reg td kind jp dp dc t hmem
    by_cases hval : keyexpr_valid td.type_description_msg.type_description.type_name = true
    · rw [load_type_from_file] at hmem
      simp only [hval, if_true] at hmem
      cases hnew : typeInfo_new td.type_description_msg.type_description.type_name kind td
          dc jp dp with
      | error e =>
        rw [hnew] at hmem
        exact Or.inl hmem
      | ok info =>
        rw [hnew] at hmem
        simp only [check_and_insert] at hmem
        cases hfound : weight_at reg info.full_name with
        | some existing =>
          simp only [hfound] at hmem
          by_cases hh : (existing.type_hash == info.type_hash) = true
          · rw [if_pos hh] at hmem
            exact Or.inl hmem
          · rw [if_neg hh] at hmem
            exact Or.inl hmem
        | none =>
          simp only [hfound] at hmem
          rcases List.mem_append.mp hmem with hl | hr
          · exact Or.inl hl
          · right
            rw [List.mem_singleton.mp hr, (typeInfo_new_ok hnew).1]
            exact hval
    · rw [load_type_from_file] at hmem
      simp only [Bool.not_eq_true] at hval
      simp only [hval, Bool.false_eq_true, if_false] at hmem
      exact Or.inl hmem

/-- C9 witness: a description whose self type name is empty is rejected and
the registry is left unchanged. -/
theorem insert_validates_keyexpr_witness :
    load_type_from_file []
      { type_description_msg :=
          { type_description := { type_name := "", fields := [] },
            referenced_type_descriptions := [] },
        type_hashes := [] } TypeKind.MSG "b.json" "b.msg" "x" =
      ([], LoadResult.err (invalidNameMsg "" "b.json")) :=
  insert_validates_keyexpr.2.1 []
    { type_description_msg :=
        { type_description := { type_name := "", fields := [] },
          referenced_type_descriptions := [] },
      type_hashes := [] } TypeKind.MSG "b.json" "b.msg" "x" rfl

/-! Helper lemmas about pattern matching. -/

theorem keMatch_cons (p : String) (ps ks : List String) :
    keMatch (p :: ps) ks =
      if p = "**" then (ks.tails).any (fun suffix => keMatch ps suffix)
      else
        match ks with
        | [] => false
        | k :: ks' => (p == "*" || p == k) && keMatch ps ks' := rfl

theorem keMatch_trailing_double_star (ks : List String) :
    keMatch ["**"] ks = true := by
  induction ks with
  | nil => rfl
  | cons a as ih =>
    rw [keMatch_cons, if_pos rfl, List.tails, List.any_cons, Bool.or_eq_true]
    right
    rw [keMatch_cons, if_pos rfl] at ih
    exact ih

theorem keMatch_cons_lit (p : String) (hp : p ≠ "**") (ps : List String)
    (k : String) (ks : List String) :
    keMatch (p :: ps) (k :: ks) = ((p == "*" || p == k) && keMatch ps ks) := by
  rw [keMatch_cons, if_neg hp]

theorem keMatch_cons_lit_nil (p : String) (hp : p ≠ "**") (ps : List String) :
    keMatch (p :: ps) [] = false := by
  rw [keMatch_cons, if_neg hp]

theorem keMatch_pkg_msg (cs : List String) :
    keMatch ["pkg", "msg", "**"] cs = true ↔ cs.take 2 = ["pkg", "msg"] := by
  match cs with
  | [] =>
    rw [keMatch_cons_lit_nil "pkg" (by decide)]
    constructor
    · intro h
      exact absurd h (by decide)
    · intro h
      simp at h
  | [c1] =>
    rw [keMatch_cons_lit "pkg" (by decide)]
    constructor
    · intro h
      rw [Bool.and_eq_true, keMatch_cons_lit_nil "msg" (by decide)] at h
      exact absurd h.2 (by decide)
    · intro h
      simp at h
  | c1 :: c2 :: rest =>
    rw [keMatch_cons_lit "pkg" (by decide), keMatch_cons_lit "msg" (by decide),
      keMatch_trailing_double_star]
    simp only [Bool.and_true, Bool.and_eq_true, Bool.or_eq_true, beq_iff_eq]
    constructor
    · rintro ⟨h1 | h1, h2 | h2⟩
      · exact absurd h1 (by decide)
      · exact absurd h1 (by decide)
      · exact absurd h2 (by decide)
      · rw [List.take, List.take, ← h1, ← h2]
        rfl
    · intro h
      simp only [List.take, List.cons.injEq] at h
      exact ⟨Or.inr h.1.symm, Or.inr h.2.1.symm⟩

/-- C1: for every sequence of loaded candidate files, a query for the pattern
pkg slash msg slash double star returns exactly the records of the registry
whose full name has pkg and msg as its first two segments, whatever the
insertion order was; the pattern semantics are those of keMatch, where a
literal matches only itself, a single star matches exactly one segment and a
trailing double star matches the node and its whole subtree. -/
theorem queryPattern_pkg_msg (entries : List LoadInput) (t : TypeInfo) :
    t ∈ get_types (buildRegistry entries) "pkg/msg/**" ↔
      t ∈ buildRegistry entries ∧ (chunks t.full_name).take 2 = ["pkg", "msg"] := by
  rw [get_types, List.mem_filter]
  rw [show chunks "pkg/msg/**" = ["pkg", "msg", "**"] from rfl]
  rw [keMatch_pkg_msg]

/-! Helper lemmas about schema flattening. -/

theorem mcapDeps_spec (reg : List TypeInfo) :
    ∀ (deps : List IndividualTypeDescription) (acc : String),
      (∀ d ∈ deps, keyexpr_valid d.type_name = true) →
      mcapDeps reg deps acc = some (acc ++ specBlocks reg deps)
  | [], acc, _ => by simp [mcapDeps, specBlocks, String.append_empty]
  | dep :: rest, acc, h => by
    have hd := h dep (List.mem_cons_self dep rest)
    have hrest : ∀ x ∈ rest, keyexpr_valid x.type_name = true :=
      fun x hx => h x (List.mem_cons_of_mem _ hx)
    cases hw : weight_at reg dep.type_name with
    | some d =>
      simp only [mcapDeps, specBlocks, hd, if_true, hw]
      rw [mcapDeps_spec reg rest (acc ++ depBlock d) hrest, String.append_assoc]
    | none =>
      simp only [mcapDeps, specBlocks, hd, if_true, hw]
      rw [mcapDeps_spec reg rest acc hrest, String.empty_append]

/-- C4: for a record all of whose referenced names are valid key expressions,
the flattening of Registry::get_mcap_schema returns exactly the text the
specification describes: the root definition text followed, for each entry of
referenced_type_descriptions in declaration order and without deduplication,
by the separator line, the kind colon short-name header line and the
definition text of the dependency resolved by exact key lookup, referenced
names absent from the index contributing nothing. -/
theorem get_mcap_schema_spec (reg : List TypeInfo) (t : TypeInfo)
    (h : ∀ d ∈ t.type_description.type_description_msg.referenced_type_descriptions,
      keyexpr_valid d.type_name = true) :
    get_mcap_schema reg t = some (mcapSchemaSpec reg t) := by
  rw [get_mcap_schema, mcapSchemaSpec]
  exact mcapDeps_spec reg _ _ h

/-- A dependency entry that is present in the registry. -/
def depB : IndividualTypeDescription := { type_name := "pkg/msg/Bar", fields := [] }

/-- A dependency entry that is absent from the registry. -/
def depC : IndividualTypeDescription := { type_name := "pkg/msg/Missing", fields := [] }

/-- A description for a root type referencing depB and depC. -/
def tdRoot : HashedTypeDescription :=
  { type_description_msg :=
      { type_description := { type_name := "pkg/msg/Root", fields := [] },
        referenced_type_descriptions := [depB, depC] },
    type_hashes := [{ type_name := "pkg/msg/Root", hash_string := "hr" }] }

/-- The description of the dependency pkg/msg/Bar. -/
def tdBar : HashedTypeDescription :=
  { type_description_msg :=
      { type_description := { type_name := "pkg/msg/Bar", fields := [] },
        referenced_type_descriptions := [] },
    type_hashes := [{ type_name := "pkg/msg/Bar", hash_string := "hb" }] }

/-- The root record of the flattening fixtures. -/
def infoRoot : TypeInfo :=
  { full_name := "pkg/msg/Root", package_name := "pkg", short_name := "Root",
    kind := TypeKind.MSG, type_description := tdRoot, type_hash := "hr",
    json_path := "r.json", definition_path := "r.msg",
    definition_content := "string data" }

/-- The resolvable dependency record of the flattening fixtures. -/
def infoBar : TypeInfo :=
  { full_name := "pkg/msg/Bar", package_name := "pkg", short_name := "Bar",
    kind := TypeKind.MSG, type_description := tdBar, type_hash := "hb",
    json_path := "bar.json", definition_path := "bar.msg",
    definition_content := "int8 y" }

/-- C4 witness: flattening the root record over a registry resolving only one
of its two referenced names returns the specified text. -/
theorem get_mcap_schema_spec_witness :
    get_mcap_schema [infoRoot, infoBar] infoRoot =
      some (mcapSchemaSpec [infoRoot, infoBar] infoRoot) :=
  get_mcap_schema_spec [infoRoot, infoBar] infoRoot (by decide)

/-- A referenced entry whose type name is the empty string, which is not a
valid key expression. -/
def depEmptyName : IndividualTypeDescription := { type_name := "", fields := [] }

/-- A description for a loadable record that references the invalid name. -/
def tdPanicky : HashedTypeDescription :=
  { type_description_msg :=
      { type_description := { type_name := "ns/msg/Panicky", fields := [] },
        referenced_type_descriptions := [depEmptyName] },
    type_hashes := [{ type_name := "ns/msg/Panicky", hash_string := "hp" }] }

/-- The record built from tdPanicky, as the loader would store it: the loader
validates only the self type name, never the referenced names. -/
def infoPanicky : TypeInfo :=
  { full_name := "ns/msg/Panicky", package_name := "ns", short_name := "Panicky",
    kind := TypeKind.MSG, type_description := tdPanicky, type_hash := "hp",
    json_path := "p.json", definition_path := "p.msg",
    definition_content := "bool b" }

/-- C5: the record infoPanicky is loadable (its own name is validated, its
referenced names are not), yet flattening it aborts: the expect on
KeyExpr::try_from panics on the empty referenced name (modelled as none)
instead of skipping it as a missing dependency, although the name is indeed
absent from the index. This contradicts the claim, and the expect message of
the source itself, that flattening never fails for any content of the
referenced list. -/
theorem flatten_panics_on_invalid_reference :
    (load_type_from_file [] tdPanicky TypeKind.MSG "p.json" "p.msg" "bool b") =
      ([infoPanicky], LoadResult.ok) ∧
    get_mcap_schema [infoPanicky] infoPanicky = none ∧
    keyexpr_valid "" = false ∧
    weight_at [infoPanicky] "" = none :=
  ⟨rfl, rfl, rfl, rfl⟩
